import Mathlib

/-!
Verification of the NutriCheck label-scanning backend (`server.py`).

Text is modelled as a list of character codes (`List Nat`), matching the
ASCII content the server manipulates.  Each definition below is a shallow
embedding of the corresponding Python function:

* `parse_ingredients_from_text` embeds the regex
  `ingredients?\s*:?\s*(.+?)(?:\n\n|nutrition|$)` (DOTALL, on lowercased
  text) with full backtracking, followed by the comma split / strip /
  length filter.
* `extract_nutritional_info` embeds the ten fixed nutrition regexes,
  applied with leftmost-match search on lowercased text.
* `analyze_one_ingredient` / `analyze_ingredients` embed the classifier:
  an optional persistent-store read (modelled by `StoreRead`), the
  in-process fallback scan over `SAMPLE_INGREDIENTS` with bidirectional
  substring matching, and the unknown-ingredient default.
* `scan_food_label` embeds the scan pipeline's core (text already
  extracted), including the try/except around the store write.
-/

/-- Character-code strings: the server only manipulates ASCII label text. -/
abbrev Str := List Nat

/-- Character codes of a string literal. -/
def String.codes (s : String) : Str := s.data.map Char.toNat

/-- Python `\s` / `str.strip` whitespace (ASCII): space, tab, LF, VT, FF, CR. -/
def isSpaceCode (n : Nat) : Bool := n == 32 || n == 9 || n == 10 || n == 11 || n == 12 || n == 13

/-- ASCII lowering of one code, as performed by `str.lower`. -/
def toLowerCode (n : Nat) : Nat := if 65 ≤ n ∧ n ≤ 90 then n + 32 else n

/-- ASCII raising of one code, as performed by `str.upper`. -/
def toUpperCode (n : Nat) : Nat := if 97 ≤ n ∧ n ≤ 122 then n - 32 else n

/-- ASCII letter test (the cased characters relevant to `str.title`). -/
def isAlphaCode (n : Nat) : Bool := (65 ≤ n && n ≤ 90) || (97 ≤ n && n ≤ 122)

/-- ASCII digit test, Python `\d`. -/
def isDigitCode (n : Nat) : Bool := 48 ≤ n && n ≤ 57

/-- `str.lower` over a whole text. -/
def pyLower (l : Str) : Str := l.map toLowerCode

/-- Drop leading whitespace codes. -/
def dropWS : Str → Str
  | [] => []
  | c :: cs => if isSpaceCode c then dropWS cs else c :: cs

/-- Python `str.strip`: drop whitespace from both ends. -/
def strip (l : Str) : Str := ((dropWS ((dropWS l).reverse)).reverse)

/-- Helper for `pyTitle`: the flag records whether the previous character was cased. -/
def pyTitleAux : Bool → Str → Str
  | _, [] => []
  | prev, c :: cs =>
    (if isAlphaCode c then (if prev then toLowerCode c else toUpperCode c) else c)
      :: pyTitleAux (isAlphaCode c) cs

/-- Python `str.title`: capitalize the first letter of every alphabetic run. -/
def pyTitle (l : Str) : Str := pyTitleAux false l

/-- Does `hay` start with `needle`? -/
def startsWithL : Str → Str → Bool
  | [], _ => true
  | _ :: _, [] => false
  | a :: as, b :: bs => a == b && startsWithL as bs

/-- Python `needle in hay` substring containment (empty needle always matches). -/
def occursIn : Str → Str → Bool
  | n, [] => startsWithL n []
  | n, c :: t => startsWithL n (c :: t) || occursIn n t

/-- Python `str.split(",")`: split on commas, keeping empty pieces. -/
def splitComma : Str → List Str
  | [] => [[]]
  | c :: cs =>
    if c == 44 then [] :: splitComma cs
    else
      match splitComma cs with
      | [] => [[c]]
      | p :: ps => (c :: p) :: ps

/-! ### The ingredients regex

`re.search(r"ingredients?\s*:?\s*(.+?)(?:\n\n|nutrition|$)", text.lower(), re.DOTALL)`.
The matcher below reproduces Python's leftmost-match search, greedy-first
backtracking for `s?`, `\s*` and `:?`, lazy-shortest-first `(.+?)`, and
the `$`-also-before-a-final-newline rule. -/

/-- Does one of the terminator alternatives `\n\n`, `nutrition`, `$` match here? -/
def atEnd : Str → Bool
  | [] => true
  | [10] => true
  | _ => false

/-- Terminator test for the ingredients capture. -/
def termAt (t : Str) : Bool :=
  startsWithL ("\n\n".codes) t || startsWithL ("nutrition".codes) t || atEnd t

/-- Lazy `(.+?)` followed by the terminator: the shortest nonempty capture wins. -/
def lazyCap : Str → Option Str
  | [] => none
  | c :: cs =>
    if termAt cs then some [c]
    else
      match lazyCap cs with
      | some r => some (c :: r)
      | none => none

/-- First successful alternative, in backtracking priority order. -/
def firstSome : List (Option α) → Option α
  | [] => none
  | o :: os =>
    match o with
    | some v => some v
    | none => firstSome os

/-- The suffixes reachable by `\s*`, greediest (most characters consumed) first. -/
def wsSuffixes : Str → List Str
  | [] => [[]]
  | c :: cs => if isSpaceCode c then wsSuffixes cs ++ [c :: cs] else [c :: cs]

/-- The suffixes reachable by `:?`, greedy first. -/
def colonOptions : Str → List Str
  | 58 :: r => [r, 58 :: r]
  | s => [s]

/-- Strip a literal from the front. -/
def dropLit : Str → Str → Option Str
  | [], s => some s
  | _ :: _, [] => none
  | a :: as, b :: bs => if a == b then dropLit as bs else none

/-- The suffixes reachable by the `s?` of `ingredients?`, greedy first. -/
def sOptions : Str → List Str
  | 115 :: r2 => [r2, 115 :: r2]
  | s => [s]

/-- Attempt the full ingredients pattern at this position; returns the capture. -/
def matchHeaderAt (s : Str) : Option Str :=
  match dropLit ("ingredient".codes) s with
  | none => none
  | some r =>
    firstSome ((sOptions r).map fun a =>
      firstSome ((wsSuffixes a).map fun b =>
        firstSome ((colonOptions b).map fun c0 =>
          firstSome ((wsSuffixes c0).map fun d => lazyCap d))))

/-- `re.search`: try every position left to right. -/
def searchIngredients : Str → Option Str
  | [] => matchHeaderAt []
  | c :: cs =>
    match matchHeaderAt (c :: cs) with
    | some r => some r
    | none => searchIngredients cs

/-- `parse_ingredients_from_text` (server.py lines 378-391): regex capture on the
lowercased text, split on commas, strip each piece, keep pieces longer than 2. -/
def parse_ingredients_from_text (text : Str) : List Str :=
  match searchIngredients (pyLower text) with
  | some cap => ((splitComma cap).map strip).filter (fun x => decide (2 < x.length))
  | none => []

/-! ### The ten nutrition regexes

Each pattern is literal words separated by `\s*`, then `\s*:?\s*`, then a
numeric capture (`(\d+)` or `(\d+\.?\d*)`), then an optional `\s*` + unit.
All the star/optional operators here are forced (the character classes on
both sides are disjoint), so a deterministic greedy matcher is exact. -/

/-- Optional `s?`, greedy. -/
def dropSOpt : Str → Str
  | 115 :: r => r
  | s => s

/-- Optional `:?`, greedy. -/
def dropColonOpt : Str → Str
  | 58 :: r => r
  | s => s

/-- Maximal digit prefix and the remainder. -/
def takeDigits : Str → Str × Str
  | [] => ([], [])
  | c :: cs =>
    if isDigitCode c then
      match takeDigits cs with
      | (d, r) => (c :: d, r)
    else ([], c :: cs)

/-- `(\d+)`: a nonempty digit run. -/
def numInt (s : Str) : Option (Str × Str) :=
  match takeDigits s with
  | ([], _) => none
  | (d, r) => some (d, r)

/-- `(\d+\.?\d*)`: digits, optional dot, more digits (greedy, which is exact here). -/
def numDec (s : Str) : Option (Str × Str) :=
  match takeDigits s with
  | ([], _) => none
  | (d, r) =>
    match r with
    | x :: r2 =>
      if x = 46 then
        match takeDigits r2 with
        | (d2, r3) => some (d ++ x :: d2, r3)
      else some (d, x :: r2)
    | [] => some (d, [])

/-- Literal words separated by `\s*`. -/
def dropWords : List Str → Str → Option Str
  | [], s => some s
  | w :: ws, s =>
    match dropLit w s with
    | none => none
    | some r =>
      match ws with
      | [] => some r
      | _ => dropWords ws (dropWS r)

/-- The numeric capture group: `(\d+\.?\d*)` when `dec`, else `(\d+)`. -/
def numCap (dec : Bool) (s : Str) : Option (Str × Str) :=
  if dec then numDec s else numInt s

/-- One nutrition pattern attempted at this position: words, optional `s?`,
`\s*:?\s*`, the numeric capture, then the optional `\s*`+unit. -/
def nutMatchAt (words : List Str) (optS : Bool) (dec : Bool) (unit : Option Str)
    (s : Str) : Option Str :=
  match dropWords words s with
  | none => none
  | some r0 =>
    match numCap dec (dropWS (dropColonOpt (dropWS (if optS then dropSOpt r0 else r0)))) with
    | none => none
    | some (v, rest) =>
      match unit with
      | none => some v
      | some u =>
        match dropLit u (dropWS rest) with
        | some _ => some v
        | none => none

/-- One of the ten nutrition patterns, as data (so pattern membership is decidable). -/
structure NutPattern where
  pname : Str
  words : List Str
  alt : Option (List Str)
  optS : Bool
  dec : Bool
  unit : Option Str
deriving DecidableEq

/-- Run a pattern at one position; `alt` is the `(?:total\s*)?` prefix alternative
of the sugars pattern (with-prefix tried first, as the regex engine does). -/
def runPat (p : NutPattern) (s : Str) : Option Str :=
  match nutMatchAt p.words p.optS p.dec p.unit s with
  | some v => some v
  | none =>
    match p.alt with
    | some w2 => nutMatchAt w2 p.optS p.dec p.unit s
    | none => none

/-- `re.search` for an arbitrary position matcher: leftmost match wins. -/
def searchWith (m : Str → Option Str) : Str → Option Str
  | [] => m []
  | c :: cs =>
    match m (c :: cs) with
    | some r => some r
    | none => searchWith m cs

/-- The ten fixed patterns of `extract_nutritional_info`, in source order. -/
def nutritionPatterns : List NutPattern :=
  [ { pname := "calories".codes, words := ["calorie".codes], alt := none,
      optS := true, dec := false, unit := none },
    { pname := "total_fat".codes, words := ["total".codes, "fat".codes], alt := none,
      optS := false, dec := true, unit := some ("g".codes) },
    { pname := "saturated_fat".codes, words := ["saturated".codes, "fat".codes], alt := none,
      optS := false, dec := true, unit := some ("g".codes) },
    { pname := "trans_fat".codes, words := ["trans".codes, "fat".codes], alt := none,
      optS := false, dec := true, unit := some ("g".codes) },
    { pname := "cholesterol".codes, words := ["cholesterol".codes], alt := none,
      optS := false, dec := false, unit := some ("mg".codes) },
    { pname := "sodium".codes, words := ["sodium".codes], alt := none,
      optS := false, dec := false, unit := some ("mg".codes) },
    { pname := "total_carbs".codes, words := ["total".codes, "carbohydrate".codes], alt := none,
      optS := false, dec := false, unit := some ("g".codes) },
    { pname := "fiber".codes, words := ["dietary".codes, "fiber".codes], alt := none,
      optS := false, dec := false, unit := some ("g".codes) },
    { pname := "sugars".codes, words := ["total".codes, "sugar".codes],
      alt := some ["sugar".codes], optS := true, dec := true, unit := some ("g".codes) },
    { pname := "protein".codes, words := ["protein".codes], alt := none,
      optS := false, dec := true, unit := some ("g".codes) } ]

/-- `extract_nutritional_info` (server.py lines 393-416): each pattern searched
independently on the lowercased text; a match inserts `name -> group(1)`. -/
def extract_nutritional_info (text : Str) : List (Str × Str) :=
  nutritionPatterns.filterMap fun p =>
    (searchWith (runPat p) (pyLower text)).map fun v => (p.pname, v)

/-! ### Reference taxonomy and classifier -/

/-- One entry of the in-process reference set (`SAMPLE_INGREDIENTS` values). -/
structure TaxEntry where
  ename : Str
  risk_level : Str
  description : Str
  banned_in : List (Str × Bool)
  sources : List Str
deriving DecidableEq

/-- The `IngredientAnalysis` response model: confidence is recorded in
hundredths of the float literal the server assigns (0.95 ↦ 95, 0.85 ↦ 85,
0.3 ↦ 30), so that the constants stay exact and decidable. -/
structure IngredientAnalysis where
  aname : Str
  risk_level : Str
  description : Str
  banned_in : List (Str × Bool)
  sources : List Str
  confidence : Nat
deriving DecidableEq

/-- `SAMPLE_INGREDIENTS` (server.py lines 53-235), key/entry pairs in the
source dict's insertion order (Python dict iteration order is insertion order). -/
def SAMPLE_INGREDIENTS : List (Str × TaxEntry) :=
  [ ("water".codes,
     { ename := "Water".codes, risk_level := "safe".codes,
       description := "Essential nutrient, completely safe for consumption".codes,
       banned_in := [], sources := ["WHO".codes, "FDA".codes] }),
    ("sugar".codes,
     { ename := "Sugar".codes, risk_level := "safe".codes,
       description := "Natural sweetener, safe in moderation".codes,
       banned_in := [], sources := ["FDA".codes] }),
    ("salt".codes,
     { ename := "Salt".codes, risk_level := "safe".codes,
       description := "Sodium chloride, essential mineral when consumed in moderation".codes,
       banned_in := [], sources := ["FDA".codes] }),
    ("flour".codes,
     { ename := "Flour".codes, risk_level := "safe".codes,
       description := "Wheat flour, safe for most people except those with celiac disease".codes,
       banned_in := [], sources := ["FDA".codes] }),
    ("milk".codes,
     { ename := "Milk".codes, risk_level := "safe".codes,
       description := "Dairy product, safe for lactose-tolerant individuals".codes,
       banned_in := [], sources := ["FDA".codes, "USDA".codes] }),
    ("eggs".codes,
     { ename := "Eggs".codes, risk_level := "safe".codes,
       description := "High-quality protein source, safe when properly cooked".codes,
       banned_in := [], sources := ["FDA".codes, "USDA".codes] }),
    ("honey".codes,
     { ename := "Honey".codes, risk_level := "safe".codes,
       description := "Natural sweetener with antioxidants, safe for most people (not for infants under 1 year)".codes,
       banned_in := [], sources := ["FDA".codes, "WHO".codes] }),
    ("olive oil".codes,
     { ename := "Olive Oil".codes, risk_level := "safe".codes,
       description := "Healthy fat, rich in monounsaturated fatty acids".codes,
       banned_in := [], sources := ["American Heart Association".codes] }),
    ("rice".codes,
     { ename := "Rice".codes, risk_level := "safe".codes,
       description := "Staple grain, safe when cooked properly".codes,
       banned_in := [], sources := ["USDA".codes] }),
    ("oats".codes,
     { ename := "Oats".codes, risk_level := "safe".codes,
       description := "Whole grain high in fiber and beneficial for heart health".codes,
       banned_in := [], sources := ["FDA".codes, "USDA".codes] }),
    ("coconut oil".codes,
     { ename := "Coconut Oil".codes, risk_level := "safe".codes,
       description := "Natural fat, stable for cooking, contains medium-chain triglycerides".codes,
       banned_in := [], sources := ["FDA".codes] }),
    ("sodium benzoate".codes,
     { ename := "Sodium Benzoate".codes, risk_level := "caution".codes,
       description := "Preservative that may cause allergic reactions in sensitive individuals".codes,
       banned_in := [], sources := ["FDA".codes, "European Food Safety Authority".codes] }),
    ("high fructose corn syrup".codes,
     { ename := "High Fructose Corn Syrup".codes, risk_level := "caution".codes,
       description := "Sweetener linked to obesity and metabolic issues when consumed in excess".codes,
       banned_in := [], sources := ["American Heart Association".codes, "Mayo Clinic".codes] }),
    ("monosodium glutamate".codes,
     { ename := "Monosodium Glutamate (MSG)".codes, risk_level := "caution".codes,
       description := "Flavor enhancer that may cause headaches in sensitive individuals".codes,
       banned_in := [], sources := ["FDA".codes] }),
    ("artificial vanilla".codes,
     { ename := "Artificial Vanilla".codes, risk_level := "caution".codes,
       description := "Synthetic flavoring, generally safe but some prefer natural alternatives".codes,
       banned_in := [], sources := ["FDA".codes] }),
    ("potassium sorbate".codes,
     { ename := "Potassium Sorbate".codes, risk_level := "caution".codes,
       description := "Preservative that may cause skin irritation in sensitive individuals".codes,
       banned_in := [], sources := ["FDA".codes] }),
    ("aspartame".codes,
     { ename := "Aspartame".codes, risk_level := "caution".codes,
       description := "Artificial sweetener, not recommended for people with PKU condition".codes,
       banned_in := [], sources := ["FDA".codes, "WHO".codes] }),
    ("acesulfame k".codes,
     { ename := "Acesulfame Potassium (Ace-K)".codes, risk_level := "caution".codes,
       description := "Artificial sweetener, safe within limits but controversial for long-term effects".codes,
       banned_in := [], sources := ["FDA".codes] }),
    ("saccharin".codes,
     { ename := "Saccharin".codes, risk_level := "caution".codes,
       description := "Artificial sweetener, allowed but linked to bladder cancer in animal studies".codes,
       banned_in := [], sources := ["FDA".codes, "National Cancer Institute".codes] }),
    ("sodium nitrate".codes,
     { ename := "Sodium Nitrate".codes, risk_level := "caution".codes,
       description := "Used in processed meats, may form carcinogenic nitrosamines when cooked at high heat".codes,
       banned_in := [], sources := ["WHO".codes, "FDA".codes] }),
    ("red dye 40".codes,
     { ename := "Red Dye 40".codes, risk_level := "banned".codes,
       description := "Artificial coloring banned in several countries due to hyperactivity concerns".codes,
       banned_in := [("EU".codes, true), ("Norway".codes, true), ("Austria".codes, true)],
       sources := ["European Food Safety Authority".codes, "Center for Science in Public Interest".codes] }),
    ("yellow dye 6".codes,
     { ename := "Yellow Dye 6".codes, risk_level := "banned".codes,
       description := "Artificial coloring banned in some countries, linked to hyperactivity".codes,
       banned_in := [("Norway".codes, true), ("Finland".codes, true)],
       sources := ["European Food Safety Authority".codes] }),
    ("bha".codes,
     { ename := "BHA (Butylated Hydroxyanisole)".codes, risk_level := "banned".codes,
       description := "Preservative classified as possible carcinogen, banned in some countries".codes,
       banned_in := [("EU".codes, true), ("Japan".codes, true)],
       sources := ["International Agency for Research on Cancer".codes] }),
    ("bht".codes,
     { ename := "BHT (Butylated Hydroxytoluene)".codes, risk_level := "banned".codes,
       description := "Preservative banned in several countries due to health concerns".codes,
       banned_in := [("EU".codes, true), ("Australia".codes, true), ("New Zealand".codes, true)],
       sources := ["European Food Safety Authority".codes] }),
    ("trans fat".codes,
     { ename := "Trans Fat".codes, risk_level := "banned".codes,
       description := "Artificial trans fats banned due to cardiovascular health risks".codes,
       banned_in := [("US".codes, true), ("Canada".codes, true), ("EU".codes, true)],
       sources := ["WHO".codes, "FDA".codes, "American Heart Association".codes] }),
    ("brominated vegetable oil".codes,
     { ename := "Brominated Vegetable Oil (BVO)".codes, risk_level := "banned".codes,
       description := "Emulsifier banned in EU and Japan, linked to reproductive and thyroid issues".codes,
       banned_in := [("EU".codes, true), ("Japan".codes, true), ("India".codes, true)],
       sources := ["FDA".codes, "EFSA".codes] }),
    ("azodicarbonamide".codes,
     { ename := "Azodicarbonamide".codes, risk_level := "banned".codes,
       description := "Used in bread as a dough conditioner, banned in EU and Australia".codes,
       banned_in := [("EU".codes, true), ("Australia".codes, true), ("Singapore".codes, true)],
       sources := ["European Food Safety Authority".codes, "FDA".codes] }),
    ("ractopamine".codes,
     { ename := "Ractopamine".codes, risk_level := "banned".codes,
       description := "Feed additive banned in EU, China, and Russia due to safety concerns".codes,
       banned_in := [("EU".codes, true), ("China".codes, true), ("Russia".codes, true)],
       sources := ["FAO".codes, "EFSA".codes] }) ]

/-- Outcome of the optional persistent-store read for one token: the store may
be absent (`db is None`), the query may raise, or it returns a document or not. -/
inductive StoreRead
  | absent
  | failure
  | found (e : TaxEntry)
  | notFound
deriving DecidableEq

/-- The document the classifier sees after the guarded store read: both the
absent store and a raised query leave `db_ingredient = None`. -/
def dbFind : StoreRead → Option TaxEntry
  | .found e => some e
  | _ => none

/-- Build the verdict that copies a matched entry's fields verbatim. -/
def mkHit (e : TaxEntry) (conf : Nat) : IngredientAnalysis :=
  { aname := e.ename, risk_level := e.risk_level, description := e.description,
    banned_in := e.banned_in, sources := e.sources, confidence := conf }

/-- The unknown-ingredient default verdict (server.py lines 466-472); the
pydantic defaults leave `banned_in` and `sources` empty. -/
def unknownVerdict (tok : Str) : IngredientAnalysis :=
  { aname := pyTitle tok, risk_level := "safe".codes,
    description := "Ingredient not found in database. Generally considered safe.".codes,
    banned_in := [], sources := [], confidence := 30 }

/-- The fallback match test: `key in ingredient_lower or ingredient_lower in key`. -/
def fallbackPred (low : Str) (p : Str × TaxEntry) : Bool :=
  occursIn p.1 low || occursIn low p.1

/-- The loop body of `analyze_ingredients` (server.py lines 422-474) for one
token: lowercase and strip, optional store read, in-process fallback scan in
dict order, unknown default. -/
def analyze_one_ingredient (find : Str → StoreRead) (tok : Str) : IngredientAnalysis :=
  match dbFind (find (strip (pyLower tok))) with
  | some e => mkHit e 95
  | none =>
    match SAMPLE_INGREDIENTS.find? (fallbackPred (strip (pyLower tok))) with
    | some p => mkHit p.2 85
    | none => unknownVerdict tok

/-- `analyze_ingredients`: one verdict per token, in input order. -/
def analyze_ingredients (find : Str → StoreRead) (toks : List Str) : List IngredientAnalysis :=
  toks.map (analyze_one_ingredient find)

/-! ### The scan pipeline core -/

/-- Outcome of the store write of a scan document. -/
inductive StoreWrite
  | absent
  | failure
  | accepted
deriving DecidableEq

/-- `db.scans.insert_one`, which the server only attempts when the store is
present, and which may raise. -/
def insert_scan : StoreWrite → Except Str Unit
  | .absent => .ok ()
  | .failure => .error ("insert failed".codes)
  | .accepted => .ok ()

/-- The guarded write (server.py lines 547-551): the except clause logs and
continues, so either outcome reduces to a no-op. -/
def try_insert_scan (w : StoreWrite) : Unit :=
  match insert_scan w with
  | .ok _ => ()
  | .error _ => ()

/-- The fields of the `ScanResult` that the pipeline computes from the OCR text. -/
structure ScanReport where
  ocr_text : Str
  parsed_ingredients : List IngredientAnalysis
  nutritional_info : List (Str × Str)
deriving DecidableEq

/-- The scan pipeline from extracted text to response (server.py lines 517-564):
parse, extract nutrition, classify, attempt the guarded store write, and
return the assembled report. -/
def scan_food_label (find : Str → StoreRead) (w : StoreWrite) (text : Str) :
    Except Str ScanReport :=
  let ingredient_names := parse_ingredients_from_text text
  let nutritional_info := extract_nutritional_info text
  let analyzed := analyze_ingredients find ingredient_names
  let _written : Unit := try_insert_scan w
  Except.ok { ocr_text := text, parsed_ingredients := analyzed,
              nutritional_info := nutritional_info }

/-! ### Helper lemmas -/

/-- `find?` returns the entry at the least index satisfying the predicate. -/
theorem find?_eq_of_first {α : Type} (p : α → Bool) (l : List α) :
    ∀ (i : Nat) (hi : i < l.length),
    p (l.get ⟨i, hi⟩) = true →
    (∀ j (hj : j < i), p (l.get ⟨j, Nat.lt_trans hj hi⟩) = false) →
    l.find? p = some (l.get ⟨i, hi⟩) := by
  induction l with
  | nil => intro i hi; exact absurd hi (Nat.not_lt_zero i)
  | cons a as ih =>
    intro i hi hp hmin
    cases i with
    | zero =>
      simp only [List.get] at hp
      simp [List.find?, hp]
    | succ k =>
      have h0 : p a = false := hmin 0 (Nat.succ_pos k)
      simp only [List.find?, h0]
      exact ih k (Nat.lt_of_succ_lt_succ hi) hp
        (fun j hj => hmin (j + 1) (Nat.succ_lt_succ hj))

/-! ### Claim theorems -/

/-- C1: the in-process fallback lookup scans the reference entries in their
fixed order and takes the first entry whose synonym key is a substring of the
lowercased trimmed token or contains it (equality included); on a hit the
verdict copies the entry's name, risk level, description, banned-in set and
sources verbatim (`mkHit`) with confidence exactly 0.85; in particular
"red dye 40" yields risk level banned with banned-in containing EU ↦ true. -/
theorem fallback_first_match :
    (∀ (tok : Str) (i : Nat) (hi : i < SAMPLE_INGREDIENTS.length),
      fallbackPred (strip (pyLower tok)) (SAMPLE_INGREDIENTS.get ⟨i, hi⟩) = true →
      (∀ j (hj : j < i),
        fallbackPred (strip (pyLower tok)) (SAMPLE_INGREDIENTS.get ⟨j, Nat.lt_trans hj hi⟩) = false) →
      analyze_one_ingredient (fun _ => StoreRead.absent) tok =
        mkHit (SAMPLE_INGREDIENTS.get ⟨i, hi⟩).2 85) ∧
    (analyze_one_ingredient (fun _ => StoreRead.absent) ("red dye 40".codes)).risk_level
        = "banned".codes ∧
    List.lookup ("EU".codes)
      (analyze_one_ingredient (fun _ => StoreRead.absent) ("red dye 40".codes)).banned_in
        = some true := by
  refine ⟨?_, ?_, ?_⟩
  · intro tok i hi hp hmin
    unfold analyze_one_ingredient
    rw [find?_eq_of_first _ _ i hi hp hmin]
    rfl
  · decide
  · decide

set_option maxRecDepth 100000 in
/-- C1 witness: "red dye 40" hits the entry at index 20 (Red Dye 40), every
earlier entry failing the match, and copies it with confidence 0.85. -/
theorem fallback_first_match_witness :
    analyze_one_ingredient (fun _ => StoreRead.absent) ("red dye 40".codes) =
      mkHit (SAMPLE_INGREDIENTS.get ⟨20, by decide⟩).2 85 :=
  fallback_first_match.1 ("red dye 40".codes) 20 (by decide) (by decide) (by decide)

/-- C2: a token whose lowercased trimmed form has no substring relation to any
synonym key gets the unknown-ingredient default: title-cased display name,
risk level safe, the fixed not-recognized description, empty banned-in and
sources, confidence exactly 0.3; in particular "xyzzyfoo". -/
theorem unknown_token_default :
    (∀ tok : Str,
      (∀ p ∈ SAMPLE_INGREDIENTS, fallbackPred (strip (pyLower tok)) p = false) →
      analyze_one_ingredient (fun _ => StoreRead.absent) tok =
        { aname := pyTitle tok, risk_level := "safe".codes,
          description := "Ingredient not found in database. Generally considered safe.".codes,
          banned_in := [], sources := [], confidence := 30 }) ∧
    analyze_one_ingredient (fun _ => StoreRead.absent) ("xyzzyfoo".codes) =
      { aname := "Xyzzyfoo".codes, risk_level := "safe".codes,
        description := "Ingredient not found in database. Generally considered safe.".codes,
        banned_in := [], sources := [], confidence := 30 } := by
  constructor
  · intro tok hnone
    unfold analyze_one_ingredient
    have hfind : SAMPLE_INGREDIENTS.find? (fallbackPred (strip (pyLower tok))) = none :=
      List.find?_eq_none.mpr (fun p hp => by rw [hnone p hp]; exact Bool.false_ne_true)
    rw [hfind]
    rfl
  · decide

/-- C2 witness: "xyzzyfoo" relates to no synonym, so the general branch applies. -/
theorem unknown_token_default_witness :
    analyze_one_ingredient (fun _ => StoreRead.absent) ("xyzzyfoo".codes) =
      { aname := pyTitle ("xyzzyfoo".codes), risk_level := "safe".codes,
        description := "Ingredient not found in database. Generally considered safe.".codes,
        banned_in := [], sources := [], confidence := 30 } :=
  unknown_token_default.1 ("xyzzyfoo".codes) (by decide)

/-- C3: the classifier emits exactly one verdict per input token, and the i-th
verdict is computed from the i-th token, for any store behavior. -/
theorem classify_length_and_order :
    (∀ (find : Str → StoreRead) (toks : List Str),
      (analyze_ingredients find toks).length = toks.length) ∧
    (∀ (find : Str → StoreRead) (toks : List Str) (i : Nat)
      (h1 : i < toks.length) (h2 : i < (analyze_ingredients find toks).length),
      (analyze_ingredients find toks).get ⟨i, h2⟩ =
        analyze_one_ingredient find (toks.get ⟨i, h1⟩)) := by
  constructor
  · intro find toks
    simp [analyze_ingredients]
  · intro find toks i h1 h2
    simp [analyze_ingredients]

/-- C3 witness: instantiated at a one-token list. -/
theorem classify_length_and_order_witness :
    (analyze_ingredients (fun _ => StoreRead.absent) ["salt".codes]).length =
      (["salt".codes] : List Str).length ∧
    (analyze_ingredients (fun _ => StoreRead.absent) ["salt".codes]).get ⟨0, by decide⟩ =
      analyze_one_ingredient (fun _ => StoreRead.absent)
        ((["salt".codes] : List Str).get ⟨0, by decide⟩) :=
  ⟨classify_length_and_order.1 _ _,
   classify_length_and_order.2 (fun _ => StoreRead.absent) ["salt".codes] 0 (by decide) (by decide)⟩

/-- The fixed reference label text of the round-trip scenario: the ingredients
line followed by a nutrition block containing "Trans Fat 0g". -/
def referenceLabelText : Str :=
  ("INGREDIENTS: Wheat flour, sugar, palm oil, milk powder, eggs, salt, baking powder, artificial vanilla, sodium benzoate, red dye 40\n\nNUTRITION FACTS\nServing Size 1 package (40g)\nCalories 150\nTotal Fat 6g\nSaturated Fat 3g\nTrans Fat 0g\nCholesterol 10mg\nSodium 125mg\nTotal Carbohydrate 20g\nDietary Fiber 2g\nTotal Sugars 12g\nProtein 4g").codes

set_option maxRecDepth 1000000 in
/-- C4: on the reference label text, the parser returns exactly 10 tokens, the
last being "red dye 40", and the nutrition extractor maps trans_fat to "0". -/
theorem reference_roundtrip :
    (parse_ingredients_from_text referenceLabelText).length = 10 ∧
    (parse_ingredients_from_text referenceLabelText).getLast? = some ("red dye 40".codes) ∧
    List.lookup ("trans_fat".codes) (extract_nutritional_info referenceLabelText) =
      some ("0".codes) := by
  refine ⟨?_, ?_, ?_⟩ <;> decide

/-- C8: a store outage never fails a scan: a read that raises (or an absent
store) makes classification fall back to the in-process set, and whatever the
write outcome, the pipeline returns `ok` with the fully computed report. -/
theorem store_outage_graceful :
    (∀ (tok : Str) (find : Str → StoreRead),
      (∀ s, find s = StoreRead.failure ∨ find s = StoreRead.absent) →
      analyze_one_ingredient find tok =
        analyze_one_ingredient (fun _ => StoreRead.absent) tok) ∧
    (∀ (find : Str → StoreRead) (w : StoreWrite) (text : Str),
      scan_food_label find w text =
        Except.ok { ocr_text := text,
                    parsed_ingredients :=
                      analyze_ingredients find (parse_ingredients_from_text text),
                    nutritional_info := extract_nutritional_info text }) := by
  constructor
  · intro tok find h
    unfold analyze_one_ingredient
    rcases h (strip (pyLower tok)) with h' | h'
    · rw [h']
      rfl
    · rw [h']
  · intro find w text
    rfl

/-- C8 witness: a raising read behaves like no store on "salt", and a scan whose
store write raises still returns the assembled report. -/
theorem store_outage_graceful_witness :
    (analyze_one_ingredient (fun _ => StoreRead.failure) ("salt".codes) =
      analyze_one_ingredient (fun _ => StoreRead.absent) ("salt".codes)) ∧
    scan_food_label (fun _ => StoreRead.failure) StoreWrite.failure ("ingredients: salt".codes) =
      Except.ok { ocr_text := ("ingredients: salt".codes),
                  parsed_ingredients :=
                    analyze_ingredients (fun _ => StoreRead.failure)
                      (parse_ingredients_from_text ("ingredients: salt".codes)),
                  nutritional_info := extract_nutritional_info ("ingredients: salt".codes) } :=
  ⟨store_outage_graceful.1 ("salt".codes) (fun _ => StoreRead.failure) (fun _ => Or.inl rfl),
   store_outage_graceful.2 (fun _ => StoreRead.failure) StoreWrite.failure ("ingredients: salt".codes)⟩

/-- C10: a token whose lowercased trimmed form is empty matches the first
reference entry (Water, risk level safe) at confidence 0.85, because the empty
string is a substring of every synonym key; the unknown branch is not taken. -/
theorem blank_token_matches_water :
    ∀ tok : Str, strip (pyLower tok) = [] →
      analyze_one_ingredient (fun _ => StoreRead.absent) tok =
        mkHit { ename := "Water".codes, risk_level := "safe".codes,
                description := "Essential nutrient, completely safe for consumption".codes,
                banned_in := [], sources := ["WHO".codes, "FDA".codes] } 85 := by
  intro tok h
  unfold analyze_one_ingredient
  rw [h]
  rfl

/-- C10 witness: the whitespace-only token. -/
theorem blank_token_matches_water_witness :
    analyze_one_ingredient (fun _ => StoreRead.absent) ("   ".codes) =
      mkHit { ename := "Water".codes, risk_level := "safe".codes,
              description := "Essential nutrient, completely safe for consumption".codes,
              banned_in := [], sources := ["WHO".codes, "FDA".codes] } 85 :=
  blank_token_matches_water ("   ".codes) (by decide)

/-! ### Parser lemmas: strip, split, and the search never inventing characters -/

/-- A string with no leading whitespace code. -/
def noLead : Str → Prop
  | [] => True
  | c :: _ => isSpaceCode c = false

theorem dropWS_suffix (l : Str) : dropWS l <:+ l := by
  induction l with
  | nil => exact List.suffix_refl []
  | cons c cs ih =>
    cases h : isSpaceCode c with
    | true =>
      have e : dropWS (c :: cs) = dropWS cs := by simp [dropWS, h]
      rw [e]
      exact ih.trans (List.suffix_cons c cs)
    | false =>
      have e : dropWS (c :: cs) = c :: cs := by simp [dropWS, h]
      rw [e]

theorem dropWS_noLead (l : Str) : noLead (dropWS l) := by
  induction l with
  | nil => trivial
  | cons c cs ih =>
    cases h : isSpaceCode c with
    | true =>
      have e : dropWS (c :: cs) = dropWS cs := by simp [dropWS, h]
      rw [e]; exact ih
    | false =>
      have e : dropWS (c :: cs) = c :: cs := by simp [dropWS, h]
      rw [e]; exact h

theorem dropWS_eq_self {l : Str} (h : noLead l) : dropWS l = l := by
  cases l with
  | nil => rfl
  | cons c cs =>
    have h' : isSpaceCode c = false := h
    simp [dropWS, h']

theorem noLead_of_isPre {p l : Str} (hp : p <+: l) (h : noLead l) : noLead p := by
  cases p with
  | nil => trivial
  | cons a as =>
    obtain ⟨t, ht⟩ := hp
    cases l with
    | nil => exact absurd ht (by simp)
    | cons b bs =>
      have hab : a = b := by
        have := congrArg (fun x => x.head?) ht
        simpa using this
      subst hab
      exact h

theorem rev_suffix_pre {x y : Str} (h : x <:+ y) : x.reverse <+: y.reverse := by
  obtain ⟨t, rfl⟩ := h
  exact ⟨t.reverse, (List.reverse_append t x).symm⟩

theorem strip_isPre (l : Str) : strip l <+: dropWS l := by
  have h1 : dropWS ((dropWS l).reverse) <:+ (dropWS l).reverse := dropWS_suffix _
  have h2 := rev_suffix_pre h1
  rwa [List.reverse_reverse] at h2

theorem strip_noLead (l : Str) : noLead (strip l) :=
  noLead_of_isPre (strip_isPre l) (dropWS_noLead l)

theorem strip_rev_noLead (l : Str) : noLead (strip l).reverse := by
  show noLead ((dropWS ((dropWS l).reverse)).reverse).reverse
  rw [List.reverse_reverse]
  exact dropWS_noLead _

theorem strip_eq_self {l : Str} (h1 : noLead l) (h2 : noLead l.reverse) : strip l = l := by
  unfold strip
  rw [dropWS_eq_self h1, dropWS_eq_self h2, List.reverse_reverse]

theorem strip_idem (l : Str) : strip (strip l) = strip l :=
  strip_eq_self (strip_noLead l) (strip_rev_noLead l)

theorem strip_subset (l : Str) : strip l ⊆ l := by
  intro c hc
  have h1 : c ∈ dropWS ((dropWS l).reverse) := by
    rw [← List.mem_reverse]; exact hc
  have h2 : c ∈ (dropWS l).reverse := (dropWS_suffix _).subset h1
  have h3 : c ∈ dropWS l := List.mem_reverse.mp h2
  exact (dropWS_suffix l).subset h3

theorem splitComma_subset (l : Str) : ∀ p ∈ splitComma l, p ⊆ l := by
  induction l with
  | nil =>
    intro p hp
    simp only [splitComma] at hp
    simp at hp
    subst hp
    exact List.nil_subset []
  | cons c cs ih =>
    intro p hp
    cases h : (c == 44) with
    | true =>
      have e : splitComma (c :: cs) = [] :: splitComma cs := by simp [splitComma, h]
      rw [e] at hp
      rcases List.mem_cons.mp hp with rfl | hp2
      · exact List.nil_subset _
      · exact (ih p hp2).trans (List.subset_cons_self c cs)
    | false =>
      rcases hsc : splitComma cs with _ | ⟨p0, ps⟩
      · have e : splitComma (c :: cs) = [[c]] := by simp [splitComma, h, hsc]
        rw [e] at hp
        simp at hp
        subst hp
        exact List.cons_subset_cons c (List.nil_subset cs)
      · have e : splitComma (c :: cs) = (c :: p0) :: ps := by simp [splitComma, h, hsc]
        rw [e] at hp
        rcases List.mem_cons.mp hp with rfl | hp2
        · have hm : p0 ∈ splitComma cs := by rw [hsc]; exact List.mem_cons_self p0 ps
          exact List.cons_subset_cons c (ih p0 hm)
        · have hm : p ∈ splitComma cs := by rw [hsc]; exact List.mem_cons_of_mem p0 hp2
          exact (ih p hm).trans (List.subset_cons_self c cs)

theorem dropLit_suffix : ∀ (n s r : Str), dropLit n s = some r → r <:+ s := by
  intro n
  induction n with
  | nil =>
    intro s r h
    simp only [dropLit, Option.some.injEq] at h
    subst h; exact List.suffix_refl s
  | cons a as ih =>
    intro s r h
    cases s with
    | nil => simp [dropLit] at h
    | cons b bs =>
      cases hab : (a == b) with
      | true =>
        have e : dropLit (a :: as) (b :: bs) = dropLit as bs := by simp [dropLit, hab]
        rw [e] at h
        exact (ih bs r h).trans (List.suffix_cons b bs)
      | false =>
        have e : dropLit (a :: as) (b :: bs) = none := by simp [dropLit, hab]
        rw [e] at h
        cases h

theorem wsSuffixes_suffix (s : Str) : ∀ x ∈ wsSuffixes s, x <:+ s := by
  induction s with
  | nil =>
    intro x hx
    simp only [wsSuffixes] at hx
    simp at hx
    subst hx; exact List.suffix_refl []
  | cons c cs ih =>
    intro x hx
    cases h : isSpaceCode c with
    | true =>
      have e : wsSuffixes (c :: cs) = wsSuffixes cs ++ [c :: cs] := by simp [wsSuffixes, h]
      rw [e] at hx
      rcases List.mem_append.mp hx with hx2 | hx2
      · exact (ih x hx2).trans (List.suffix_cons c cs)
      · simp at hx2; subst hx2; exact List.suffix_refl _
    | false =>
      have e : wsSuffixes (c :: cs) = [c :: cs] := by simp [wsSuffixes, h]
      rw [e] at hx
      simp at hx
      subst hx; exact List.suffix_refl _

theorem colonOptions_suffix (s : Str) : ∀ x ∈ colonOptions s, x <:+ s := by
  intro x hx
  unfold colonOptions at hx
  split at hx
  · simp at hx
    rcases hx with rfl | rfl
    · exact List.suffix_cons 58 _
    · exact List.suffix_refl _
  · simp at hx
    subst hx
    exact List.suffix_refl _

theorem sOptions_suffix (s : Str) : ∀ x ∈ sOptions s, x <:+ s := by
  intro x hx
  unfold sOptions at hx
  split at hx
  · simp at hx
    rcases hx with rfl | rfl
    · exact List.suffix_cons 115 _
    · exact List.suffix_refl _
  · simp at hx
    subst hx
    exact List.suffix_refl _

theorem lazyCap_subset : ∀ (s r : Str), lazyCap s = some r → r ⊆ s := by
  intro s
  induction s with
  | nil => intro r h; simp [lazyCap] at h
  | cons c cs ih =>
    intro r h
    cases ht : termAt cs with
    | true =>
      have e : lazyCap (c :: cs) = some [c] := by simp [lazyCap, ht]
      rw [e] at h
      injection h with h'
      subst h'
      simp
    | false =>
      rcases hl : lazyCap cs with _ | r0
      · have e : lazyCap (c :: cs) = none := by simp [lazyCap, ht, hl]
        rw [e] at h
        cases h
      · have e : lazyCap (c :: cs) = some (c :: r0) := by simp [lazyCap, ht, hl]
        rw [e] at h
        injection h with h'
        subst h'
        exact List.cons_subset_cons c (ih r0 hl)

theorem firstSome_mem {α : Type} : ∀ (L : List (Option α)) (v : α),
    firstSome L = some v → some v ∈ L := by
  intro L
  induction L with
  | nil => intro v h; simp [firstSome] at h
  | cons o os ih =>
    intro v h
    cases o with
    | some w =>
      simp only [firstSome] at h
      rw [h]
      exact List.mem_cons_self _ _
    | none =>
      simp only [firstSome] at h
      exact List.mem_cons_of_mem _ (ih v h)

theorem matchHeaderAt_subset (s r : Str) (h : matchHeaderAt s = some r) : r ⊆ s := by
  rcases hd : dropLit ("ingredient".codes) s with _ | r0
  · have e : matchHeaderAt s = none := by simp [matchHeaderAt, hd]
    rw [e] at h
    cases h
  · have e : matchHeaderAt s = firstSome ((sOptions r0).map fun a =>
        firstSome ((wsSuffixes a).map fun b =>
          firstSome ((colonOptions b).map fun c0 =>
            firstSome ((wsSuffixes c0).map fun d => lazyCap d)))) := by
      simp [matchHeaderAt, hd]
    rw [e] at h
    have hr0 : r0 <:+ s := dropLit_suffix _ _ _ hd
    have h1 := firstSome_mem _ _ h
    rw [List.mem_map] at h1
    obtain ⟨a, ha, ha2⟩ := h1
    have h2 := firstSome_mem _ _ ha2
    rw [List.mem_map] at h2
    obtain ⟨b, hb, hb2⟩ := h2
    have h3 := firstSome_mem _ _ hb2
    rw [List.mem_map] at h3
    obtain ⟨c0, hc0, hc02⟩ := h3
    have h4 := firstSome_mem _ _ hc02
    rw [List.mem_map] at h4
    obtain ⟨d, hd4, hd42⟩ := h4
    have hsub : r ⊆ d := lazyCap_subset d r hd42
    have hds : d <:+ c0 := wsSuffixes_suffix c0 d hd4
    have hcs : c0 <:+ b := colonOptions_suffix b c0 hc0
    have hbs : b <:+ a := wsSuffixes_suffix a b hb
    have has : a <:+ r0 := sOptions_suffix r0 a ha
    exact fun x hx =>
      hr0.subset (has.subset (hbs.subset (hcs.subset (hds.subset (hsub hx)))))

theorem searchIngredients_subset : ∀ (l r : Str), searchIngredients l = some r → r ⊆ l := by
  intro l
  induction l with
  | nil =>
    intro r h
    simp only [searchIngredients] at h
    exact matchHeaderAt_subset [] r h
  | cons c cs ih =>
    intro r h
    rcases hm : matchHeaderAt (c :: cs) with _ | r0
    · have e : searchIngredients (c :: cs) = searchIngredients cs := by
        simp [searchIngredients, hm]
      rw [e] at h
      exact (ih r h).trans (List.subset_cons_self c cs)
    · have e : searchIngredients (c :: cs) = some r0 := by
        simp [searchIngredients, hm]
      rw [e] at h
      injection h with h'
      subst h'
      exact matchHeaderAt_subset _ _ hm

theorem dropLit_none_of_not_starts : ∀ (n s : Str), startsWithL n s = false → dropLit n s = none := by
  intro n
  induction n with
  | nil => intro s h; simp [startsWithL] at h
  | cons a as ih =>
    intro s h
    cases s with
    | nil => rfl
    | cons b bs =>
      have h2 : (a == b && startsWithL as bs) = false := h
      rcases Bool.and_eq_false_iff.mp h2 with hab | hrest
      · simp [dropLit, hab]
      · cases hab : (a == b) with
        | true =>
          have e : dropLit (a :: as) (b :: bs) = dropLit as bs := by simp [dropLit, hab]
          rw [e]
          exact ih bs hrest
        | false => simp [dropLit, hab]

theorem matchHeaderAt_none (s : Str) (h : startsWithL ("ingredient".codes) s = false) :
    matchHeaderAt s = none := by
  simp [matchHeaderAt, dropLit_none_of_not_starts _ _ h]

theorem searchIngredients_none : ∀ l : Str,
    occursIn ("ingredient".codes) l = false → searchIngredients l = none := by
  intro l
  induction l with
  | nil =>
    intro h
    exact matchHeaderAt_none [] h
  | cons c cs ih =>
    intro h
    have h2 : (startsWithL ("ingredient".codes) (c :: cs) ||
        occursIn ("ingredient".codes) cs) = false := h
    obtain ⟨ha, hb⟩ := Bool.or_eq_false_iff.mp h2
    have e : searchIngredients (c :: cs) = searchIngredients cs := by
      simp [searchIngredients, matchHeaderAt_none _ ha]
    rw [e]
    exact ih hb

/-- C7: if the lowercased text nowhere contains "ingredient" — i.e. no header,
with or without the optional "s" and colon, can match — the parser returns the
empty token list rather than failing; the embedded parser is a total function,
mirroring the source's only failure mode (no regex match) being an explicit
branch that degrades to an empty result. -/
theorem missing_header_empty :
    ∀ text : Str, occursIn ("ingredient".codes) (pyLower text) = false →
      parse_ingredients_from_text text = [] := by
  intro text h
  unfold parse_ingredients_from_text
  rw [searchIngredients_none _ h]

/-- C7 witness: a text with no ingredients header parses to the empty list. -/
theorem missing_header_empty_witness :
    parse_ingredients_from_text ("NUTRITION FACTS\nCalories 150".codes) = [] :=
  missing_header_empty ("NUTRITION FACTS\nCalories 150".codes) (by decide)

/-- Every token the parser emits is its own trimmed form and has length > 2. -/
theorem parse_token_facts (text s : Str) (hs : s ∈ parse_ingredients_from_text text) :
    strip s = s ∧ 3 ≤ s.length := by
  rcases hsr : searchIngredients (pyLower text) with _ | cap
  · have e : parse_ingredients_from_text text = [] := by
      simp [parse_ingredients_from_text, hsr]
    rw [e] at hs
    simp at hs
  · have e : parse_ingredients_from_text text =
        ((splitComma cap).map strip).filter (fun x => decide (2 < x.length)) := by
      simp [parse_ingredients_from_text, hsr]
    rw [e] at hs
    obtain ⟨hmap, hlen⟩ := List.mem_filter.mp hs
    constructor
    · obtain ⟨x, _, rfl⟩ := List.mem_map.mp hmap
      exact strip_idem x
    · exact of_decide_eq_true hlen

/-- C6: every emitted token is already stripped and at least 3 characters long,
and the token list is (in order) a sublist of the stripped comma-split pieces
of the captured span. -/
theorem parsed_tokens_min_length :
    (∀ text s : Str, s ∈ parse_ingredients_from_text text → strip s = s ∧ 3 ≤ s.length) ∧
    (∀ text cap : Str, searchIngredients (pyLower text) = some cap →
      List.Sublist (parse_ingredients_from_text text) ((splitComma cap).map strip)) := by
  constructor
  · exact parse_token_facts
  · intro text cap hsr
    have e : parse_ingredients_from_text text =
        ((splitComma cap).map strip).filter (fun x => decide (2 < x.length)) := by
      simp [parse_ingredients_from_text, hsr]
    rw [e]
    exact List.filter_sublist _

/-- C6 witness: the token "salt" of a small label is stripped and long enough. -/
theorem parsed_tokens_min_length_witness :
    ("salt".codes ∈ parse_ingredients_from_text ("ingredients: salt".codes)) ∧
    strip ("salt".codes) = "salt".codes ∧ 3 ≤ ("salt".codes).length :=
  ⟨by decide, parsed_tokens_min_length.1 ("ingredients: salt".codes) ("salt".codes) (by decide)⟩

theorem toLowerCode_not_upper (n : Nat) : ¬(65 ≤ toLowerCode n ∧ toLowerCode n ≤ 90) := by
  unfold toLowerCode
  split <;> omega

theorem pyLower_no_upper (l : Str) : ∀ c ∈ pyLower l, ¬(65 ≤ c ∧ c ≤ 90) := by
  intro c hc
  obtain ⟨x, _, rfl⟩ := List.mem_map.mp hc
  exact toLowerCode_not_upper x

/-- Every character of every parsed token comes from the lowercased text, hence
is not an uppercase ASCII letter. -/
theorem parse_no_upper (text s : Str) (hs : s ∈ parse_ingredients_from_text text) :
    ∀ c ∈ s, ¬(65 ≤ c ∧ c ≤ 90) := by
  intro c hc
  rcases hsr : searchIngredients (pyLower text) with _ | cap
  · have e : parse_ingredients_from_text text = [] := by
      simp [parse_ingredients_from_text, hsr]
    rw [e] at hs
    simp at hs
  · have e : parse_ingredients_from_text text =
        ((splitComma cap).map strip).filter (fun x => decide (2 < x.length)) := by
      simp [parse_ingredients_from_text, hsr]
    rw [e] at hs
    obtain ⟨hmap, _⟩ := List.mem_filter.mp hs
    obtain ⟨x, hx, rfl⟩ := List.mem_map.mp hmap
    have h1 : c ∈ x := strip_subset x hc
    have h2 : c ∈ cap := splitComma_subset cap x hx h1
    have h3 : c ∈ pyLower text := searchIngredients_subset _ _ hsr h2
    exact pyLower_no_upper text c h3

/-- C9: parsed tokens are entirely lowercase (no uppercase ASCII letters reach
the classifier, because the whole text is lowercased before capture), and each
verdict's display name is either a taxonomy entry's canonical name or the
title-casing of one of the lowercased tokens — never the source text's casing. -/
theorem parsed_tokens_lowercase :
    (∀ text s : Str, s ∈ parse_ingredients_from_text text →
      ∀ c ∈ s, ¬(65 ≤ c ∧ c ≤ 90)) ∧
    (∀ (text : Str) (v : IngredientAnalysis),
      v ∈ analyze_ingredients (fun _ => StoreRead.absent) (parse_ingredients_from_text text) →
      (∃ p ∈ SAMPLE_INGREDIENTS, v.aname = p.2.ename) ∨
      (∃ t ∈ parse_ingredients_from_text text,
        v.aname = pyTitle t ∧ ∀ c ∈ t, ¬(65 ≤ c ∧ c ≤ 90))) := by
  constructor
  · exact parse_no_upper
  · intro text v hv
    obtain ⟨t, ht, rfl⟩ := List.mem_map.mp hv
    rcases hf : SAMPLE_INGREDIENTS.find? (fallbackPred (strip (pyLower t))) with _ | p
    · right
      have e : analyze_one_ingredient (fun _ => StoreRead.absent) t = unknownVerdict t := by
        unfold analyze_one_ingredient
        rw [hf]
        rfl
      rw [e]
      exact ⟨t, ht, rfl, parse_no_upper text t ht⟩
    · left
      have e : analyze_one_ingredient (fun _ => StoreRead.absent) t = mkHit p.2 85 := by
        unfold analyze_one_ingredient
        rw [hf]
        rfl
      rw [e]
      exact ⟨p, List.mem_of_find?_eq_some hf, rfl⟩

/-- C9 witness: the token parsed from an uppercase label is "salt", and its
first character code 115 is not an uppercase letter. -/
theorem parsed_tokens_lowercase_witness :
    ("salt".codes ∈ parse_ingredients_from_text ("INGREDIENTS: SALT".codes)) ∧
    ¬(65 ≤ 115 ∧ (115 : Nat) ≤ 90) :=
  ⟨by decide,
   parsed_tokens_lowercase.1 ("INGREDIENTS: SALT".codes) ("salt".codes) (by decide) 115 (by decide)⟩

/-! ### Shape and independence of the nutrition captures -/

/-- The language of `(\d+)`: a nonempty all-digit string. -/
def intShape (v : Str) : Bool := !v.isEmpty && v.all isDigitCode

/-- The language of `(\d+\.?\d*)`: digits, then optionally a dot and digits. -/
def decShape (v : Str) : Bool :=
  match takeDigits v with
  | (d, r) =>
    !d.isEmpty &&
      (r.isEmpty || (match r with | 46 :: r2 => r2.all isDigitCode | _ => false))

theorem takeDigits_fst_all : ∀ s : Str, (takeDigits s).1.all isDigitCode = true := by
  intro s
  induction s with
  | nil => rfl
  | cons c cs ih =>
    cases h : isDigitCode c with
    | true =>
      have e : takeDigits (c :: cs) = (c :: (takeDigits cs).1, (takeDigits cs).2) := by
        simp [takeDigits, h]
      rw [e]
      simp [h, ih]
    | false =>
      have e : takeDigits (c :: cs) = ([], c :: cs) := by simp [takeDigits, h]
      rw [e]
      rfl

theorem takeDigits_append_nondigit : ∀ d : Str, d.all isDigitCode = true →
    ∀ (x : Nat) (r : Str), isDigitCode x = false → takeDigits (d ++ x :: r) = (d, x :: r) := by
  intro d
  induction d with
  | nil =>
    intro _ x r hx
    simp only [List.nil_append]
    simp [takeDigits, hx]
  | cons c d' ih =>
    intro hall x r hx
    simp only [List.all_cons, Bool.and_eq_true] at hall
    obtain ⟨hc, hall'⟩ := hall
    simp only [List.cons_append]
    have e : takeDigits (c :: (d' ++ x :: r)) =
        (c :: (takeDigits (d' ++ x :: r)).1, (takeDigits (d' ++ x :: r)).2) := by
      simp [takeDigits, hc]
    rw [e, ih hall' x r hx]

theorem takeDigits_of_all : ∀ d : Str, d.all isDigitCode = true → takeDigits d = (d, []) := by
  intro d
  induction d with
  | nil => intro _; rfl
  | cons c d' ih =>
    intro hall
    simp only [List.all_cons, Bool.and_eq_true] at hall
    obtain ⟨hc, hall'⟩ := hall
    have e : takeDigits (c :: d') = (c :: (takeDigits d').1, (takeDigits d').2) := by
      simp [takeDigits, hc]
    rw [e, ih hall']

theorem numInt_shape (s v r : Str) (h : numInt s = some (v, r)) : intShape v = true := by
  rcases ht : takeDigits s with ⟨d, r0⟩
  have hall : d.all isDigitCode = true := by
    have h2 := takeDigits_fst_all s
    rw [ht] at h2
    exact h2
  cases d with
  | nil =>
    have e : numInt s = none := by simp [numInt, ht]
    rw [e] at h
    exact Option.noConfusion h
  | cons c d' =>
    have e : numInt s = some (c :: d', r0) := by simp [numInt, ht]
    rw [e] at h
    injection h with h1
    simp only [Prod.mk.injEq] at h1
    obtain ⟨rfl, rfl⟩ := h1
    simp [intShape, hall]

theorem numDec_shape (s v r : Str) (h : numDec s = some (v, r)) : decShape v = true := by
  rcases ht : takeDigits s with ⟨d, r0⟩
  have hall : d.all isDigitCode = true := by
    have h2 := takeDigits_fst_all s
    rw [ht] at h2
    exact h2
  cases d with
  | nil =>
    have e : numDec s = none := by simp [numDec, ht]
    rw [e] at h
    exact Option.noConfusion h
  | cons c d' =>
    rcases r0 with _ | ⟨x, r2⟩
    · have e : numDec s = some (c :: d', []) := by simp [numDec, ht]
      rw [e] at h
      injection h with h1
      simp only [Prod.mk.injEq] at h1
      obtain ⟨rfl, rfl⟩ := h1
      unfold decShape
      rw [takeDigits_of_all _ hall]
      simp
    · by_cases hx : x = 46
      · subst hx
        rcases ht2 : takeDigits r2 with ⟨d2, r3⟩
        have hall2 : d2.all isDigitCode = true := by
          have h2 := takeDigits_fst_all r2
          rw [ht2] at h2
          exact h2
        have e : numDec s = some ((c :: d') ++ 46 :: d2, r3) := by
          simp [numDec, ht, ht2]
        rw [e] at h
        injection h with h1
        simp only [Prod.mk.injEq] at h1
        obtain ⟨rfl, rfl⟩ := h1
        unfold decShape
        rw [takeDigits_append_nondigit _ hall 46 d2 (by decide)]
        simp [hall2]
      · have e : numDec s = some (c :: d', x :: r2) := by simp [numDec, ht, hx]
        rw [e] at h
        injection h with h1
        simp only [Prod.mk.injEq] at h1
        obtain ⟨rfl, rfl⟩ := h1
        unfold decShape
        rw [takeDigits_of_all _ hall]
        simp

theorem numCap_shape (dec : Bool) (s v r : Str) (h : numCap dec s = some (v, r)) :
    (if dec then decShape v else intShape v) = true := by
  cases dec with
  | true =>
    simp only [numCap, if_true] at h
    simp only [if_true]
    exact numDec_shape s v r h
  | false =>
    simp only [numCap, if_false] at h
    show intShape v = true
    exact numInt_shape s v r h

theorem nutMatchAt_shape (words : List Str) (optS dec : Bool) (unit : Option Str) (s v : Str)
    (h : nutMatchAt words optS dec unit s = some v) :
    (if dec then decShape v else intShape v) = true := by
  rcases hdw : dropWords words s with _ | r0
  · have e : nutMatchAt words optS dec unit s = none := by simp [nutMatchAt, hdw]
    rw [e] at h
    exact Option.noConfusion h
  · rcases hnc : numCap dec (dropWS (dropColonOpt (dropWS (if optS then dropSOpt r0 else r0))))
      with _ | ⟨v0, rest⟩
    · have e : nutMatchAt words optS dec unit s = none := by simp [nutMatchAt, hdw, hnc]
      rw [e] at h
      exact Option.noConfusion h
    · rcases unit with _ | u
      · have e : nutMatchAt words optS dec none s = some v0 := by simp [nutMatchAt, hdw, hnc]
        rw [e] at h
        injection h with h1
        subst h1
        exact numCap_shape _ _ _ _ hnc
      · rcases hdl : dropLit u (dropWS rest) with _ | r9
        · have e : nutMatchAt words optS dec (some u) s = none := by
            simp [nutMatchAt, hdw, hnc, hdl]
          rw [e] at h
          exact Option.noConfusion h
        · have e : nutMatchAt words optS dec (some u) s = some v0 := by
            simp [nutMatchAt, hdw, hnc, hdl]
          rw [e] at h
          injection h with h1
          subst h1
          exact numCap_shape _ _ _ _ hnc

theorem runPat_shape (p : NutPattern) (s v : Str) (h : runPat p s = some v) :
    (if p.dec then decShape v else intShape v) = true := by
  rcases h1 : nutMatchAt p.words p.optS p.dec p.unit s with _ | v1
  · rcases halt : p.alt with _ | w2
    · have e : runPat p s = none := by simp [runPat, h1, halt]
      rw [e] at h
      exact Option.noConfusion h
    · have e : runPat p s = nutMatchAt w2 p.optS p.dec p.unit s := by simp [runPat, h1, halt]
      rw [e] at h
      exact nutMatchAt_shape _ _ _ _ _ _ h
  · have e : runPat p s = some v1 := by simp [runPat, h1]
    rw [e] at h
    injection h with h2
    subst h2
    exact nutMatchAt_shape _ _ _ _ _ _ h1

theorem searchWith_first (m : Str → Option Str) : ∀ l v : Str, searchWith m l = some v →
    ∃ i, i ≤ l.length ∧ m (l.drop i) = some v ∧ ∀ j, j < i → m (l.drop j) = none := by
  intro l
  induction l with
  | nil =>
    intro v h
    exact ⟨0, Nat.le_refl 0, h, fun j hj => absurd hj (Nat.not_lt_zero j)⟩
  | cons c cs ih =>
    intro v h
    rcases hm : m (c :: cs) with _ | r0
    · have e : searchWith m (c :: cs) = searchWith m cs := by simp [searchWith, hm]
      rw [e] at h
      obtain ⟨i, hle, hmi, hmin⟩ := ih v h
      refine ⟨i + 1, Nat.succ_le_succ hle, ?_, ?_⟩
      · simpa using hmi
      · intro j hj
        cases j with
        | zero => simpa using hm
        | succ k =>
          have hk : k < i := Nat.lt_of_succ_lt_succ hj
          simpa using hmin k hk
    · have e : searchWith m (c :: cs) = some r0 := by simp [searchWith, hm]
      rw [e] at h
      injection h with h1
      subst h1
      exact ⟨0, Nat.zero_le _, hm, fun j hj => absurd hj (Nat.not_lt_zero j)⟩

theorem nut_keys_sublist (t : Str) : ∀ ps : List NutPattern,
    List.Sublist
      ((ps.filterMap fun pq => (searchWith (runPat pq) t).map fun v => (pq.pname, v)).map
        Prod.fst)
      (ps.map NutPattern.pname) := by
  intro ps
  induction ps with
  | nil => simp
  | cons p ps ih =>
    rcases hs : searchWith (runPat p) t with _ | v
    · have e : ((p :: ps).filterMap fun pq =>
          (searchWith (runPat pq) t).map fun v => (pq.pname, v)) =
          ps.filterMap fun pq => (searchWith (runPat pq) t).map fun v => (pq.pname, v) := by
        simp [List.filterMap_cons, hs]
      rw [e, List.map_cons]
      exact List.Sublist.cons p.pname ih
    · have e : ((p :: ps).filterMap fun pq =>
          (searchWith (runPat pq) t).map fun v => (pq.pname, v)) =
          (p.pname, v) :: ps.filterMap fun pq =>
            (searchWith (runPat pq) t).map fun v => (pq.pname, v) := by
        simp [List.filterMap_cons, hs]
      rw [e, List.map_cons, List.map_cons]
      exact List.Sublist.cons₂ p.pname ih

theorem lookup_none_of_keys {β : Type} (k : Str) : ∀ l : List (Str × β),
    k ∉ l.map Prod.fst → List.lookup k l = none := by
  intro l
  induction l with
  | nil => intro _; rfl
  | cons e es ih =>
    intro hk
    rcases e with ⟨a, b⟩
    simp only [List.map_cons, List.mem_cons] at hk
    push_neg at hk
    obtain ⟨h1, h2⟩ := hk
    have hbeq : (k == a) = false := beq_eq_false_iff_ne.mpr h1
    have el : List.lookup k ((a, b) :: es) = List.lookup k es := by
      simp [List.lookup, hbeq]
    rw [el]
    exact ih h2

theorem nut_lookup (t : Str) : ∀ ps : List NutPattern,
    (ps.map NutPattern.pname).Nodup → ∀ p ∈ ps,
    List.lookup p.pname
      (ps.filterMap fun pq => (searchWith (runPat pq) t).map fun v => (pq.pname, v)) =
      searchWith (runPat p) t := by
  intro ps
  induction ps with
  | nil => intro _ p hp; exact absurd hp (List.not_mem_nil p)
  | cons q qs ih =>
    intro hnd p hp
    have hnd' : (qs.map NutPattern.pname).Nodup := (List.nodup_cons.mp hnd).2
    have hqnotin : q.pname ∉ qs.map NutPattern.pname := (List.nodup_cons.mp hnd).1
    rcases List.mem_cons.mp hp with rfl | hp2
    · rcases hs : searchWith (runPat p) t with _ | v
      · have e : ((p :: qs).filterMap fun pq =>
            (searchWith (runPat pq) t).map fun v => (pq.pname, v)) =
            qs.filterMap fun pq => (searchWith (runPat pq) t).map fun v => (pq.pname, v) := by
          simp [List.filterMap_cons, hs]
        rw [e]
        apply lookup_none_of_keys
        intro hmem
        exact hqnotin ((nut_keys_sublist t qs).subset hmem)
      · have e : ((p :: qs).filterMap fun pq =>
            (searchWith (runPat pq) t).map fun v => (pq.pname, v)) =
            (p.pname, v) :: qs.filterMap fun pq =>
              (searchWith (runPat pq) t).map fun v => (pq.pname, v) := by
          simp [List.filterMap_cons, hs]
        rw [e]
        simp [List.lookup]
    · have hpin : p.pname ∈ qs.map NutPattern.pname := List.mem_map_of_mem NutPattern.pname hp2
      have hne : p.pname ≠ q.pname := by
        intro hcontra
        rw [hcontra] at hpin
        exact hqnotin hpin
      rcases hs : searchWith (runPat q) t with _ | v
      · have e : ((q :: qs).filterMap fun pq =>
            (searchWith (runPat pq) t).map fun v => (pq.pname, v)) =
            qs.filterMap fun pq => (searchWith (runPat pq) t).map fun v => (pq.pname, v) := by
          simp [List.filterMap_cons, hs]
        rw [e]
        exact ih hnd' p hp2
      · have e : ((q :: qs).filterMap fun pq =>
            (searchWith (runPat pq) t).map fun v => (pq.pname, v)) =
            (q.pname, v) :: qs.filterMap fun pq =>
              (searchWith (runPat pq) t).map fun v => (pq.pname, v) := by
          simp [List.filterMap_cons, hs]
        rw [e]
        have hbeq : (p.pname == q.pname) = false := beq_eq_false_iff_ne.mpr hne
        have el : List.lookup p.pname ((q.pname, v) :: qs.filterMap fun pq =>
            (searchWith (runPat pq) t).map fun v => (pq.pname, v)) =
            List.lookup p.pname (qs.filterMap fun pq =>
              (searchWith (runPat pq) t).map fun v => (pq.pname, v)) := by
          simp [List.lookup, hbeq]
        rw [el]
        exact ih hnd' p hp2

set_option maxRecDepth 1000000 in
/-- C5 counterexample: the total-carbohydrate pattern uses `(\d+)` only, so a
decimal value immediately preceding its unit produces no capture at all (the
key is omitted), while the same phrase with an integer is captured — refuting
the claim that each of the ten patterns captures "an integer or a decimal". -/
theorem nutrition_decimal_counterexample :
    extract_nutritional_info ("Total Carbohydrate 35.5g".codes) = [] ∧
    List.lookup ("total_carbs".codes)
      (extract_nutritional_info ("Total Carbohydrate 35g".codes)) = some ("35".codes) := by
  constructor <;> decide

set_option maxRecDepth 1000000 in
/-- C5 (amended): the result map never repeats a fact name; each fact is
independently optional — its key maps exactly to the leftmost match of its own
pattern, and `searchWith` provably returns the first (leftmost) match; captured
values are decimal-or-integer numerals for the five `(\d+\.?\d*)` patterns
(total fat, saturated fat, trans fat, sugars, protein) and integer-only
numerals for the five `(\d+)` patterns (calories, cholesterol, sodium,
total carbohydrate, dietary fiber); the patterns tolerate optional colon,
whitespace and case (concrete instances).  For the four integer patterns whose
capture is followed by a unit token, a decimal value before the unit makes the
whole pattern fail and the key is omitted ("Sodium 12.5mg" below); calories
has no unit token, so a decimal value still matches and only its integer part
is captured ("Calories 150.5" ↦ "150" below). -/
theorem nutrition_patterns_amended :
    (∀ text : Str, ((extract_nutritional_info text).map Prod.fst).Nodup) ∧
    (∀ (text : Str) (p : NutPattern), p ∈ nutritionPatterns →
      List.lookup p.pname (extract_nutritional_info text) =
        searchWith (runPat p) (pyLower text)) ∧
    (∀ (m : Str → Option Str) (l v : Str), searchWith m l = some v →
      ∃ i, i ≤ l.length ∧ m (l.drop i) = some v ∧ ∀ j, j < i → m (l.drop j) = none) ∧
    (∀ (text : Str) (p : NutPattern) (v : Str), p ∈ nutritionPatterns →
      List.lookup p.pname (extract_nutritional_info text) = some v →
      (if p.dec then decShape v else intShape v) = true) ∧
    (List.lookup ("total_fat".codes)
        (extract_nutritional_info ("Total Fat: 6.5 g".codes)) = some ("6.5".codes) ∧
     List.lookup ("calories".codes)
        (extract_nutritional_info ("CALORIES:200".codes)) = some ("200".codes) ∧
     List.lookup ("sodium".codes)
        (extract_nutritional_info ("sodium 10mg sodium 20mg".codes)) = some ("10".codes) ∧
     extract_nutritional_info ("Sodium 12.5mg".codes) = [] ∧
     List.lookup ("calories".codes)
        (extract_nutritional_info ("Calories 150.5".codes)) = some ("150".codes)) := by
  refine ⟨?_, ?_, ?_, ?_, ?_, ?_, ?_, ?_, ?_⟩
  · intro text
    unfold extract_nutritional_info
    exact ((by decide : (nutritionPatterns.map NutPattern.pname).Nodup)).sublist
      (nut_keys_sublist (pyLower text) nutritionPatterns)
  · intro text p hp
    unfold extract_nutritional_info
    exact nut_lookup (pyLower text) nutritionPatterns (by decide) p hp
  · intro m l v h
    exact searchWith_first m l v h
  · intro text p v hp hl
    unfold extract_nutritional_info at hl
    rw [nut_lookup (pyLower text) nutritionPatterns (by decide) p hp] at hl
    obtain ⟨i, _, hmi, _⟩ := searchWith_first _ _ _ hl
    exact runPat_shape p _ v hmi
  · decide
  · decide
  · decide
  · decide
  · decide

set_option maxRecDepth 1000000 in
/-- C5 witness: the lookup-independence clause instantiated at the total-fat
pattern on a concrete text. -/
theorem nutrition_patterns_amended_witness :
    List.lookup ((nutritionPatterns.get ⟨1, by decide⟩).pname)
      (extract_nutritional_info ("Total Fat: 6g".codes)) =
      searchWith (runPat (nutritionPatterns.get ⟨1, by decide⟩))
        (pyLower ("Total Fat: 6g".codes)) :=
  nutrition_patterns_amended.2.1 ("Total Fat: 6g".codes)
    (nutritionPatterns.get ⟨1, by decide⟩) (List.get_mem nutritionPatterns 1 (by decide))
